import Mathlib

/-
Shallow embedding of the venue-research agentic workflow
(repository mobatusi/venue-research-agentic-workflow), covering the
record merger, the scoring / hydration / email stages and the state
passing of src/venue_score_flow/src/venue_score_flow.

Conventions of the embedding:
- Python `Optional` fields become `Option`.
- Python floats (scores, distances) are modelled as `Int`: no claim
  depends on non-integral values, only on equality and ordering.
- Python dicts are modelled as association lists where an assignment
  removes any previous binding of the key and appends the new one
  (`dictInsert`), so lookups see the last assignment.
- Code that raises (AttributeError on a missing attribute, TypeError
  on comparing or substituting None) is modelled with `Except String`.
-/

namespace VenueFlow

/-- Data model of types.py: `InputData`. -/
structure InputData where
  address : String
  radius_km : Int
  event_date : Option String := none
  event_time : Option String := none
  linkedin_url : Option String := none
  instagram_url : Option String := none
  tiktok_url : Option String := none
  sender_name : Option String := none
  sender_email : Option String := none
  email_template : Option String := none
deriving DecidableEq, Repr

/-- Data model of types.py: `Venue`. The `id` field is a plain string
(pydantic generates a uuid when it is absent); every other field is
optional. -/
structure Venue where
  id : String
  name : Option String := none
  type : Option String := none
  address : Option String := none
  distance_km : Option Int := none
  website : Option String := none
  phone : Option String := none
  email : Option String := none
  capacity : Option Int := none
  amenities : Option (List String) := none
  accessibility : Option Int := none
  parking : Option String := none
  special_features : Option String := none
  audio_visual : Option String := none
  technology : Option String := none
  other : Option String := none
deriving DecidableEq, Repr

/-- Data model of types.py: `VenueScore`. Note that it has `name`,
`score` and `reason` fields only; in particular it has no `id` field. -/
structure VenueScore where
  name : Option String := none
  score : Option Int := none
  reason : Option String := none
deriving DecidableEq, Repr

/-- Data model of types.py: `ScoredVenues`. It has no capacity,
amenities, accessibility, parking, special_features, audio_visual,
technology or other field. -/
structure ScoredVenues where
  id : Option String := none
  name : Option String := none
  type : Option String := none
  address : Option String := none
  distance_km : Option Int := none
  website : Option String := none
  phone : Option String := none
  email : Option String := none
  score : Option Int := none
  reason : Option String := none
deriving DecidableEq, Repr

/-- Drop leading whitespace characters, as Python `str.strip` does on
the left. -/
def trimLeftChars : List Char → List Char
  | [] => []
  | c :: l => if c.isWhitespace then trimLeftChars l else c :: l

/-- Drop leading and trailing whitespace characters (Python
`str.strip`). -/
def trimChars (l : List Char) : List Char :=
  (trimLeftChars (trimLeftChars l).reverse).reverse

/-- Python `s.strip().lower()`: the normalization applied to both sides
of the join key in utils/venueUtils.py, modelled on the character list
of the string (ASCII lowering; the claims use ASCII names only). -/
def normKey (s : String) : String :=
  String.mk ((trimChars s.data).map Char.toLower)

/-- Lookup in an association list modelling a Python dict
(`d.get(k)`). -/
def dictGet (k : String) : List (String × α) → Option α
  | [] => none
  | (k', v) :: m => if k = k' then some v else dictGet k m

/-- Assignment `d[k] = v` in a Python dict: any previous binding of `k`
is superseded.  We drop old bindings of `k` and append the new one, so
`dictGet` sees exactly the last assignment of each key. -/
def dictInsert (m : List (String × α)) (k : String) (v : α) : List (String × α) :=
  m.filter (fun p => p.1 ≠ k) ++ [(k, v)]

/-- First-biased choice on options. -/
def optOr : Option α → Option α → Option α
  | some a, _ => some a
  | none, b => b

/-- The last element of a list satisfying `p`, if any. -/
def lastFind (p : α → Bool) : List α → Option α
  | [] => none
  | a :: l => optOr (lastFind p l) (if p a then some a else none)

/-- A Python dict comprehension / build loop `d[key a] = val a` over a
list, where extracting the key of an element may raise (modelled by
`key a = none`, e.g. `None.strip()` raising AttributeError). -/
def dictOfList (key : α → Option String) (val : α → β) :
    List α → List (String × β) → Except String (List (String × β))
  | [], m => .ok m
  | a :: rest, m =>
    match key a with
    | none => .error "AttributeError"
    | some k => dictOfList key val rest (dictInsert m k (val a))

/-- The score-dict key of a `VenueScore`: its normalized name
(`score.name.strip().lower()` in utils/venueUtils.py line 16), which is
`none` when the score's name is missing (Python raises
AttributeError). -/
def scoreKey (s : VenueScore) : Option String :=
  s.name.map normKey

/-- utils/venueUtils.py line 16:
`score_dict = dict from score.name.strip().lower() to score` --
raises AttributeError when a score has `name = None`. -/
def buildScoreDict (venue_scores : List VenueScore) :
    Except String (List (String × VenueScore)) :=
  dictOfList scoreKey (fun s => s) venue_scores []

/-- The `ScoredVenues(...)` construction of utils/venueUtils.py lines
26-37: Venue fields id, name, type, address, distance_km are copied,
website/phone/email get `venue.field or ""` (None becomes the empty
string), and score/reason come from the matched `VenueScore`. -/
def mkScored (venue : Venue) (score : VenueScore) : ScoredVenues :=
  { id := some venue.id
    name := venue.name
    type := venue.type
    address := venue.address
    distance_km := venue.distance_km
    website := some (venue.website.getD "")
    phone := some (venue.phone.getD "")
    email := some (venue.email.getD "")
    score := score.score
    reason := score.reason }

/-- The venue loop of utils/venueUtils.py lines 20-40: for each venue,
normalize its name (AttributeError when the name is None), look the key
up in the score dict, and append the combined record on a hit. -/
def combineLoop (score_dict : List (String × VenueScore)) :
    List Venue → Except String (List ScoredVenues)
  | [] => .ok []
  | venue :: rest =>
    match venue.name with
    | none => .error "AttributeError"
    | some n =>
      match combineLoop score_dict rest with
      | .error e => .error e
      | .ok tail =>
        match dictGet (normKey n) score_dict with
        | some score => .ok (mkScored venue score :: tail)
        | none => .ok tail

/-- utils/venueUtils.py `combine_venues_with_scores` (the variant that
main.py imports): build the name-keyed score dict, then walk the venue
list appending a `ScoredVenues` for every venue whose normalized name
has a score. -/
def combine_venues_with_scores (venues : List Venue)
    (venue_scores : List VenueScore) : Except String (List ScoredVenues) :=
  match buildScoreDict venue_scores with
  | .error e => .error e
  | .ok score_dict => combineLoop score_dict venues

/-- utils/venuUtils.py `combine_venues_with_scores` (the id-keyed
variant, not imported by main.py): it evaluates `score.id` for every
score in the list, but `VenueScore` (types.py) has no `id` attribute,
so any non-empty score list raises AttributeError; with an empty score
list the dict is empty, every `score_dict.get(venue.id)` misses, and
the result is empty. -/
def combine_venues_with_scores_by_id (venues : List Venue)
    (venue_scores : List VenueScore) : Except String (List ScoredVenues) :=
  match venue_scores with
  | [] => .ok []
  | _ => .error "AttributeError: VenueScore object has no attribute id"

/-- A venue with only an id and a name, used in concrete statements. -/
def mkVenueNamed (vid vname : String) : Venue :=
  { id := vid, name := some vname }

/-- The sort key of main.py lines 178-180 and 249-251:
`sorted(hydrated, key = value of v.score, reverse=True)`. For a record
whose score is present this is the score; records with a missing score
never reach the sort (Python raises comparing None, see
`hydrate_venues`). -/
def scoreVal (v : ScoredVenues) : Int :=
  v.score.getD 0

/-- Insert into a list sorted by descending `scoreVal`, placing the new
element before the first element whose key is not strictly greater:
this is the stable behaviour of Python `sorted(..., reverse=True)`,
where ties keep their original relative order. -/
def insertDesc (x : ScoredVenues) : List ScoredVenues → List ScoredVenues
  | [] => [x]
  | y :: ys => if scoreVal x < scoreVal y then y :: insertDesc x ys else x :: y :: ys

/-- Stable sort by descending `scoreVal`, modelling Python
`sorted(hydrated_venues, key = score, reverse=True)`. -/
def isortDesc (l : List ScoredVenues) : List ScoredVenues :=
  l.foldr insertDesc []

/-- main.py `hydrate_venues` (lines 237-253): combine the venues with
their scores, then sort the result by score descending.  Python's
`sorted` raises TypeError when it compares `None` with a number, which
happens exactly when the list has at least two elements and some record
has `score = None`; this is modelled by the error branch. -/
def hydrate_venues (venues : List Venue) (venue_scores : List VenueScore) :
    Except String (List ScoredVenues) :=
  match combine_venues_with_scores venues venue_scores with
  | .error e => .error e
  | .ok hydrated =>
    if hydrated.length ≤ 1 ∨ hydrated.all (fun v => v.score.isSome) then
      .ok (isortDesc hydrated)
    else
      .error "TypeError: comparison not supported between float and NoneType"

/-- main.py `human_in_the_loop` (lines 166-181): before displaying the
ranked venues to the operator it recombines and re-sorts the hydrated
list with exactly the same code as `hydrate_venues`. -/
def human_in_the_loop_hydrate (venues : List Venue)
    (venue_scores : List VenueScore) : Except String (List ScoredVenues) :=
  match combine_venues_with_scores venues venue_scores with
  | .error e => .error e
  | .ok hydrated =>
    if hydrated.length ≤ 1 ∨ hydrated.all (fun v => v.score.isSome) then
      .ok (isortDesc hydrated)
    else
      .error "TypeError: comparison not supported between float and NoneType"

/-- main.py `VenueScoreState` (lines 33-40): the pipeline state.  The
`generated_emails` dict is an association list with `dictInsert`
assignment. -/
structure VenueScoreState where
  id : String
  input_data : Option InputData := none
  venues : List Venue := []
  venue_score : List VenueScore := []
  hydrated_venues : List ScoredVenues := []
  scored_venues_feedback : Option String := none
  generated_emails : List (String × String) := []
deriving DecidableEq, Repr

/-- main.py `score_venues` (lines 114-163).  The external scoring crew
is an oracle from the accumulated feedback and a venue to an optional
`VenueScore` (`none` models `result.pydantic` being empty, which the
code logs and maps to `None`).  `asyncio.gather` returns the per-task
results in task-creation order, i.e. venue order, and line 158 then
assigns the non-`None` results to `state.venue_score`, replacing the
previous list. -/
def score_venues (oracle : Option String → Venue → Option VenueScore)
    (st : VenueScoreState) : VenueScoreState :=
  let venue_scores := st.venues.map (oracle st.scored_venues_feedback)
  { st with venue_score := venue_scores.filterMap id }

/-- main.py `human_in_the_loop` choice "2" (lines 206-212): the
operator's free-text feedback is assigned to
`state.scored_venues_feedback` before the scoring stage is re-run. -/
def apply_redo_feedback (st : VenueScoreState) (feedback : String) :
    VenueScoreState :=
  { st with scored_venues_feedback := some feedback }

/-- A decoded JSON value, the result of `json.loads(result.raw)` in
main.py `search_venues`.  Numbers are modelled as `Int`. -/
inductive JValue where
  | jnull
  | jbool (b : Bool)
  | jnum (n : Int)
  | jstr (s : String)
  | jarr (items : List JValue)
  | jobj (fields : List (String × JValue))

/-- Field access on a decoded JSON object (keys of a Python dict are
unique, so the first binding is the binding). -/
def getJField (fields : List (String × JValue)) (k : String) : Option JValue :=
  dictGet k fields

/-- Validation of the `id` field of `Venue` (types.py line 18): a
string field with a uuid `default_factory`.  An absent key yields the
freshly generated id, a string is taken as is, anything else (including
null) is a validation error. -/
def reqStrField (fresh : String) (fields : List (String × JValue))
    (k : String) : Option String :=
  match getJField fields k with
  | none => some fresh
  | some (.jstr s) => some s
  | some _ => none

/-- Validation of an `Optional[str]` field: absent or null yields
`none`, a string yields the string, anything else is a validation
error. -/
def optStrField (fields : List (String × JValue)) (k : String) :
    Option (Option String) :=
  match getJField fields k with
  | none => some none
  | some .jnull => some none
  | some (.jstr s) => some (some s)
  | some _ => none

/-- Validation of an `Optional[float]` or `Optional[int]` field
(numbers modelled as `Int`; pydantic's lenient numeric-string coercion
is not modelled -- no claim depends on it). -/
def optNumField (fields : List (String × JValue)) (k : String) :
    Option (Option Int) :=
  match getJField fields k with
  | none => some none
  | some .jnull => some none
  | some (.jnum n) => some (some n)
  | some _ => none

/-- Validation of the `Optional[List[str]]` `amenities` field: a list
whose items must all be strings. -/
def optStrListField (fields : List (String × JValue)) (k : String) :
    Option (Option (List String)) :=
  match getJField fields k with
  | none => some none
  | some .jnull => some none
  | some (.jarr items) =>
    match items.mapM (fun j => match j with | .jstr s => some s | _ => none) with
    | some l => some (some l)
    | none => none
  | some _ => none

/-- The `Venue(**venue_data)` pydantic validation of main.py line 104:
each field of types.py `Venue` is checked against its declared type;
unknown keys are ignored; any field failure is a `ValidationError`,
modelled as `none`. -/
def validateVenue (fresh : String) (fields : List (String × JValue)) :
    Option Venue := do
  let id ← reqStrField fresh fields "id"
  let name ← optStrField fields "name"
  let vtype ← optStrField fields "type"
  let address ← optStrField fields "address"
  let distance_km ← optNumField fields "distance_km"
  let website ← optStrField fields "website"
  let phone ← optStrField fields "phone"
  let email ← optStrField fields "email"
  let capacity ← optNumField fields "capacity"
  let amenities ← optStrListField fields "amenities"
  let accessibility ← optNumField fields "accessibility"
  let parking ← optStrField fields "parking"
  let special_features ← optStrField fields "special_features"
  let audio_visual ← optStrField fields "audio_visual"
  let technology ← optStrField fields "technology"
  let other ← optStrField fields "other"
  pure { id := id, name := name, type := vtype, address := address,
         distance_km := distance_km, website := website, phone := phone,
         email := email, capacity := capacity, amenities := amenities,
         accessibility := accessibility, parking := parking,
         special_features := special_features, audio_visual := audio_visual,
         technology := technology, other := other }

/-- The item loop of main.py `search_venues` lines 101-109: each item
that is a dict is validated and appended on success; items that are not
dicts, or fail validation, are logged and dropped.  `freshIds i` is the
uuid pydantic would generate for the i-th item if its id is absent. -/
def appendValidVenues (freshIds : Nat → String) (i : Nat)
    (items : List JValue) (venues : List Venue) : List Venue :=
  match items with
  | [] => venues
  | item :: rest =>
    match item with
    | .jobj fields =>
      match validateVenue (freshIds i) fields with
      | some v => appendValidVenues freshIds (i + 1) rest (venues ++ [v])
      | none => appendValidVenues freshIds (i + 1) rest venues
    | _ => appendValidVenues freshIds (i + 1) rest venues

/-- main.py `search_venues` (lines 58-112).  The external search result
is `none` when `result.raw` is empty or fails to decode as JSON (lines
81-91: the method returns, leaving the state unchanged); otherwise it
is the decoded value: a dict is wrapped in a one-element list (lines
94-96), a list is used as is, and any other shape is logged and the
method returns with the state unchanged (lines 97-99). -/
def search_venues (freshIds : Nat → String) (raw : Option JValue)
    (st : VenueScoreState) : VenueScoreState :=
  match raw with
  | none => st
  | some (.jobj fields) =>
    { st with venues := appendValidVenues freshIds 0 [.jobj fields] st.venues }
  | some (.jarr items) =>
    { st with venues := appendValidVenues freshIds 0 items st.venues }
  | some _ => st

/-- The valid venues among a list of decoded items, with their arrival
positions: the specification-level description of what the search loop
appends. -/
def validVenuesOf (freshIds : Nat → String) (items : List JValue) :
    List Venue :=
  (items.enum).filterMap (fun p =>
    match p.2 with
    | .jobj fields => validateVenue (freshIds p.1) fields
    | _ => none)

/-- main.py line 297: `re.sub` of every character outside
`[a-zA-Z0-9_\- ]` with the empty string. -/
def sanitizeName (s : String) : String :=
  String.mk (s.data.filter (fun c =>
    c.isAlphanum || c = '_' || c = '-' || c = ' '))

/-- The filename a venue's draft is saved under (main.py lines
297-298), when the venue has a name. -/
def fileKeyOf (v : ScoredVenues) : Option String :=
  v.name.map (fun n => sanitizeName n ++ ".txt")

/-- The per-venue body of main.py `write_and_save_emails` lines
270-310, run for each hydrated venue: draft the email (external crew,
modelled by the `draft` oracle), write it to the sanitized filename
(overwriting whatever was there), and record it in
`generated_emails[venue.name]`.  `re.sub` on a `None` name raises
TypeError, modelled by the error branch. -/
def writeEmailsLoop (draft : ScoredVenues → String) :
    List ScoredVenues → List (String × String) → List (String × String) →
    Except String (List (String × String) × List (String × String))
  | [], files, emails => .ok (files, emails)
  | v :: rest, files, emails =>
    match v.name with
    | none => .error "TypeError: expected string or bytes-like object"
    | some n =>
      writeEmailsLoop draft rest
        (dictInsert files (sanitizeName n ++ ".txt") (draft v))
        (dictInsert emails n (draft v))

/-- main.py `write_and_save_emails` (lines 256-329): only when the
input's `email_template` equals the empty string does the stage draft,
save and record one email per hydrated venue; otherwise it does nothing
and returns the state.  `files` is the contents of the
`email_responses` directory, an association list from filename to file
content. -/
def write_and_save_emails (draft : ScoredVenues → String)
    (st : VenueScoreState) (files : List (String × String)) :
    Except String (List (String × String) × VenueScoreState) :=
  match st.input_data with
  | none => .error "AttributeError: NoneType has no attribute email_template"
  | some input =>
    if input.email_template = some "" then
      match writeEmailsLoop draft st.hydrated_venues files st.generated_emails with
      | .ok (files', emails') => .ok (files', { st with generated_emails := emails' })
      | .error e => .error e
    else
      .ok (files, st)

/- Concrete records used in witness and counterexample statements. -/

def vLoft : Venue := { id := "a", name := some " The Loft " }

def vPlainLoft : Venue := mkVenueNamed "a" "Loft"

def sLoft : VenueScore := { name := some "the loft", score := some 90, reason := some "central" }

def sOrphan : VenueScore := { name := some "hall", score := some 50, reason := some "far" }

def sNoName : VenueScore := { name := none, score := some 5, reason := some "r" }

def sDup1 : VenueScore := { name := some "loft", score := some 10, reason := some "x" }

def sDup2 : VenueScore := { name := some " LOFT ", score := some 20, reason := some "y" }

def vCap1 : Venue := { id := "a", name := some "Loft", capacity := some 100 }

def vCap2 : Venue := { id := "a", name := some "Loft", capacity := some 5 }

def sC3 : VenueScore := { name := some "loft", score := some 90, reason := some "central" }

def vAlpha : Venue := mkVenueNamed "a" "Alpha"

def vBeta : Venue := mkVenueNamed "b" "Beta"

def vGamma : Venue := mkVenueNamed "c" "Gamma"

def sAlpha : VenueScore := { name := some "alpha", score := some 10, reason := some "ra" }

def sBeta : VenueScore := { name := some "beta", score := some 90, reason := some "rb" }

def inputTemplate : InputData :=
  { address := "1333 Adams St, Brooklyn", radius_km := 1,
    email_template := some "Dear venue," }

def inputEmptyTemplate : InputData :=
  { address := "1333 Adams St, Brooklyn", radius_km := 1,
    email_template := some "" }

def ghA : ScoredVenues := { id := some "a", name := some "Grand Hall!", score := some 90 }

def ghB : ScoredVenues := { id := some "b", name := some "Grand Hall?", score := some 80 }

def stTemplate : VenueScoreState :=
  { id := "run", input_data := some inputTemplate, hydrated_venues := [ghA] }

def stDraft : VenueScoreState :=
  { id := "run", input_data := some inputEmptyTemplate, hydrated_venues := [ghA, ghB] }

def draftBody (v : ScoredVenues) : String :=
  (v.name.getD "venue") ++ " body"

def stFb : VenueScoreState := { id := "run" }

/-- A concrete scoring oracle that fails on the venue with id "b" and
succeeds on every other venue. -/
def scoreOracleC8 (fb : Option String) (v : Venue) : Option VenueScore :=
  if v.id = "b" then none else some { name := v.name, score := some 1, reason := fb }

def stC8 : VenueScoreState := { id := "run", venues := [vAlpha, vBeta, vGamma] }

/- Helper lemmas on the dict model. -/

theorem optOr_none_right (x : Option α) : optOr x none = x := by
  cases x <;> rfl

theorem optOr_some_left (a : α) (y : Option α) : optOr (some a) y = some a := rfl

theorem optOr_none_left (y : Option α) : optOr none y = y := rfl

theorem map_optOr (f : α → β) (x y : Option α) :
    Option.map f (optOr x y) = optOr (Option.map f x) (Option.map f y) := by
  cases x <;> rfl

theorem optOr_isSome_left (x y : Option α) (h : x.isSome) : optOr x y = x := by
  cases x with
  | none => simp [Option.isSome] at h
  | some a => rfl

theorem dictGet_dictInsert (k k' : String) (v : α) (m : List (String × α)) :
    dictGet k (dictInsert m k' v) = if k = k' then some v else dictGet k m := by
  induction m with
  | nil =>
    simp only [dictInsert, List.filter_nil, List.nil_append]
    by_cases h : k = k' <;> simp [dictGet, h]
  | cons p m ih =>
    by_cases hp : p.1 = k'
    · have : dictInsert (p :: m) k' v = dictInsert m k' v := by
        simp [dictInsert, List.filter_cons, hp]
      rw [this, ih]
      by_cases h : k = k'
      · simp [h]
      · have hk : k ≠ p.1 := fun he => h (he.trans hp)
        simp [h, dictGet, hk]
    · have : dictInsert (p :: m) k' v = p :: dictInsert m k' v := by
        simp [dictInsert, List.filter_cons, hp]
      rw [this]
      by_cases hk : k = p.1
      · have h : k ≠ k' := fun he => hp (hk ▸ he)
        cases p with
        | mk pk pv => simp_all [dictGet]
      · cases p with
        | mk pk pv =>
          simp only [dictGet, if_neg hk] at *
          rw [ih]

theorem lastFind_mem (p : α → Bool) (l : List α) (a : α)
    (h : lastFind p l = some a) : a ∈ l ∧ p a = true := by
  induction l with
  | nil => simp [lastFind] at h
  | cons b l ih =>
    simp only [lastFind] at h
    cases hl : lastFind p l with
    | some c =>
      rw [hl, optOr_some_left] at h
      cases h
      rcases ih hl with ⟨hmem, hp⟩
      exact ⟨List.mem_cons_of_mem _ hmem, hp⟩
    | none =>
      rw [hl, optOr_none_left] at h
      by_cases hb : p b
      · simp [hb] at h
        cases h
        exact ⟨List.mem_cons_self _ _, hb⟩
      · simp [hb] at h

theorem dictOfList_ok (key : α → Option String) (val : α → β) (l : List α)
    (h : ∀ a ∈ l, (key a).isSome) (m : List (String × β)) :
    ∃ d, dictOfList key val l m = .ok d := by
  induction l generalizing m with
  | nil => exact ⟨m, rfl⟩
  | cons a l ih =>
    have ha := h a (List.mem_cons_self _ _)
    cases hk : key a with
    | none => rw [hk] at ha; simp [Option.isSome] at ha
    | some k =>
      simpa [dictOfList, hk] using
        ih (fun b hb => h b (List.mem_cons_of_mem _ hb)) (dictInsert m k (val a))

theorem dictOfList_error (key : α → Option String) (val : α → β) (l : List α)
    (h : ∃ a ∈ l, key a = none) (m : List (String × β)) :
    ∃ e, dictOfList key val l m = .error e := by
  induction l generalizing m with
  | nil => simp at h
  | cons a l ih =>
    cases hk : key a with
    | none => exact ⟨"AttributeError", by simp [dictOfList, hk]⟩
    | some k =>
      rcases h with ⟨b, hb, hbn⟩
      rcases List.mem_cons.mp hb with rfl | hbl
      · rw [hk] at hbn; cases hbn
      · exact (by simpa [dictOfList, hk] using ih ⟨b, hbl, hbn⟩ (dictInsert m k (val a)))

theorem dictOfList_char (key : α → Option String) (val : α → β) (l : List α)
    (m d : List (String × β)) (h : dictOfList key val l m = .ok d) (k : String) :
    dictGet k d =
      optOr ((lastFind (fun a => key a = some k) l).map val) (dictGet k m) := by
  induction l generalizing m with
  | nil =>
    cases h
    simp [lastFind, optOr_none_left]
  | cons a l ih =>
    cases hk : key a with
    | none => simp [dictOfList, hk] at h
    | some ka =>
      rw [dictOfList, hk] at h
      have := ih (dictInsert m ka (val a)) h
      rw [this, dictGet_dictInsert]
      simp only [lastFind, map_optOr]
      by_cases hka : k = ka
      · subst hka
        have hpa : (if (decide (key a = some k)) = true then some a else none)
            = some a := by simp [hk]
        rw [if_pos rfl, hpa]
        cases hlf : lastFind (fun b => decide (key b = some k)) l with
        | none => simp [hlf, optOr]
        | some c => simp [hlf, optOr]
      · have hne : key a ≠ some k := by
          rw [hk]
          exact fun he => hka (Option.some.inj he).symm
        have hpa : (if (decide (key a = some k)) = true then some a else none)
            = (none : Option α) := by simp [hne]
        rw [if_neg hka, hpa]
        simp [optOr_none_right]

theorem lastFind_isSome_iff (p : α → Bool) (l : List α) :
    (lastFind p l).isSome = true ↔ ∃ a ∈ l, p a = true := by
  induction l with
  | nil => simp [lastFind]
  | cons b l ih =>
    simp only [lastFind]
    cases hl : lastFind p l with
    | some c =>
      simp only [optOr_some_left, Option.isSome_some]
      constructor
      · intro _
        rcases (ih.mp (by rw [hl]; rfl)) with ⟨a, ha, hpa⟩
        exact ⟨a, List.mem_cons_of_mem _ ha, hpa⟩
      · intro _; trivial
    | none =>
      simp only [optOr_none_left]
      constructor
      · intro h
        by_cases hb : p b
        · exact ⟨b, List.mem_cons_self _ _, hb⟩
        · simp [hb] at h
      · rintro ⟨a, ha, hpa⟩
        rcases List.mem_cons.mp ha with rfl | hal
        · simp [hpa]
        · have : (lastFind p l).isSome = true := ih.mpr ⟨a, hal, hpa⟩
          rw [hl] at this
          simp at this

theorem buildScoreDict_char (venue_scores : List VenueScore)
    (d : List (String × VenueScore))
    (h : buildScoreDict venue_scores = .ok d) (k : String) :
    dictGet k d = lastFind (fun s => scoreKey s = some k) venue_scores := by
  unfold buildScoreDict at h
  have hc := dictOfList_char scoreKey (fun s => s) venue_scores [] d h k
  rw [hc]
  have hmap : ∀ x : Option VenueScore, Option.map (fun s => s) x = x := by
    intro x; cases x <;> rfl
  rw [hmap]
  exact optOr_none_right _

theorem buildScoreDict_ok (venue_scores : List VenueScore)
    (h : ∀ s ∈ venue_scores, s.name.isSome) :
    ∃ d, buildScoreDict venue_scores = .ok d := by
  refine dictOfList_ok _ _ _ (fun s hs => ?_) []
  rcases Option.isSome_iff_exists.mp (h s hs) with ⟨n, hn⟩
  simp [scoreKey, hn]

theorem buildScoreDict_error (venue_scores : List VenueScore)
    (h : ∃ s ∈ venue_scores, s.name = none) :
    ∃ e, buildScoreDict venue_scores = .error e := by
  refine dictOfList_error _ _ _ ?_ []
  rcases h with ⟨s, hs, hn⟩
  exact ⟨s, hs, by simp [scoreKey, hn]⟩

theorem combineLoop_ok (d : List (String × VenueScore)) (venues : List Venue)
    (h : ∀ v ∈ venues, v.name.isSome) :
    ∃ out, combineLoop d venues = .ok out := by
  induction venues with
  | nil => exact ⟨[], rfl⟩
  | cons v l ih =>
    rcases Option.isSome_iff_exists.mp (h v (List.mem_cons_self _ _)) with ⟨n, hn⟩
    rcases ih (fun u hu => h u (List.mem_cons_of_mem _ hu)) with ⟨tail, htail⟩
    cases hg : dictGet (normKey n) d with
    | some s => exact ⟨mkScored v s :: tail, by simp [combineLoop, hn, htail, hg]⟩
    | none => exact ⟨tail, by simp [combineLoop, hn, htail, hg]⟩

theorem combineLoop_mem (d : List (String × VenueScore)) (venues : List Venue)
    (out : List ScoredVenues) (h : combineLoop d venues = .ok out)
    (r : ScoredVenues) (hr : r ∈ out) :
    ∃ v ∈ venues, ∃ n s, v.name = some n ∧
      dictGet (normKey n) d = some s ∧ r = mkScored v s := by
  induction venues generalizing out with
  | nil =>
    cases h
    simp at hr
  | cons v l ih =>
    cases hn : v.name with
    | none => simp [combineLoop, hn] at h
    | some n =>
      cases htail : combineLoop d l with
      | error e => simp [combineLoop, hn, htail] at h
      | ok tail =>
        cases hg : dictGet (normKey n) d with
        | some s =>
          simp only [combineLoop, hn, htail, hg] at h
          cases h
          rcases List.mem_cons.mp hr with rfl | hrt
          · exact ⟨v, List.mem_cons_self _ _, n, s, hn, hg, rfl⟩
          · rcases ih _ htail hrt with ⟨u, hu, n', s', h₁, h₂, h₃⟩
            exact ⟨u, List.mem_cons_of_mem _ hu, n', s', h₁, h₂, h₃⟩
        | none =>
          simp only [combineLoop, hn, htail, hg] at h
          cases h
          rcases ih _ htail hr with ⟨u, hu, n', s', h₁, h₂, h₃⟩
          exact ⟨u, List.mem_cons_of_mem _ hu, n', s', h₁, h₂, h₃⟩

theorem combineLoop_names_ext (d d' : List (String × VenueScore))
    (venues : List Venue) (out out' : List ScoredVenues)
    (hdom : ∀ k, (dictGet k d).isSome = (dictGet k d').isSome)
    (h : combineLoop d venues = .ok out)
    (h' : combineLoop d' venues = .ok out') :
    out.map (fun r => r.name) = out'.map (fun r => r.name) := by
  induction venues generalizing out out' with
  | nil =>
    cases h; cases h'; rfl
  | cons v l ih =>
    cases hn : v.name with
    | none => simp [combineLoop, hn] at h
    | some n =>
      cases htail : combineLoop d l with
      | error e => simp [combineLoop, hn, htail] at h
      | ok tail =>
        cases htail' : combineLoop d' l with
        | error e => simp [combineLoop, hn, htail'] at h'
        | ok tail' =>
          have hnames := ih _ _ htail htail'
          cases hg : dictGet (normKey n) d with
          | some s =>
            have hsome : (dictGet (normKey n) d').isSome = true := by
              rw [← hdom (normKey n), hg]; rfl
            rcases Option.isSome_iff_exists.mp hsome with ⟨s', hg'⟩
            simp only [combineLoop, hn, htail, hg] at h
            simp only [combineLoop, hn, htail', hg'] at h'
            cases h; cases h'
            simp only [List.map_cons, hnames, mkScored]
          | none =>
            have hnone : (dictGet (normKey n) d').isSome = false := by
              rw [← hdom (normKey n), hg]; rfl
            have hg' : dictGet (normKey n) d' = none := by
              cases hx : dictGet (normKey n) d' with
              | none => rfl
              | some s' => rw [hx] at hnone; cases hnone
            simp only [combineLoop, hn, htail, hg] at h
            simp only [combineLoop, hn, htail', hg'] at h'
            cases h; cases h'
            exact hnames

/- Sorting lemmas: the stable descending sort is a permutation, is
pairwise non-increasing, and preserves the relative order of elements
with any fixed sort key. -/

theorem insertDesc_perm (x : ScoredVenues) (l : List ScoredVenues) :
    (insertDesc x l).Perm (x :: l) := by
  induction l with
  | nil => exact List.Perm.refl _
  | cons y ys ih =>
    rw [insertDesc]
    by_cases h : scoreVal x < scoreVal y
    · rw [if_pos h]
      exact (ih.cons y).trans (List.Perm.swap x y ys)
    · rw [if_neg h]

theorem isortDesc_perm (l : List ScoredVenues) : (isortDesc l).Perm l := by
  induction l with
  | nil => exact List.Perm.refl _
  | cons x xs ih =>
    show (insertDesc x (isortDesc xs)).Perm (x :: xs)
    exact (insertDesc_perm x (isortDesc xs)).trans (ih.cons x)

theorem insertDesc_mem (x : ScoredVenues) (l : List ScoredVenues)
    (z : ScoredVenues) (hz : z ∈ insertDesc x l) : z = x ∨ z ∈ l :=
  List.mem_cons.mp ((insertDesc_perm x l).mem_iff.mp hz)

theorem insertDesc_pairwise (x : ScoredVenues) (l : List ScoredVenues)
    (hl : l.Pairwise (fun a b => scoreVal b ≤ scoreVal a)) :
    (insertDesc x l).Pairwise (fun a b => scoreVal b ≤ scoreVal a) := by
  induction l with
  | nil => simp [insertDesc]
  | cons y ys ih =>
    rw [insertDesc]
    rcases List.pairwise_cons.mp hl with ⟨hy, hys⟩
    by_cases h : scoreVal x < scoreVal y
    · rw [if_pos h]
      refine List.pairwise_cons.mpr ⟨?_, ih hys⟩
      intro z hz
      rcases insertDesc_mem x ys z hz with rfl | hzys
      · exact le_of_lt h
      · exact hy z hzys
    · rw [if_neg h]
      have hxy : scoreVal y ≤ scoreVal x := not_lt.mp h
      refine List.pairwise_cons.mpr ⟨?_, hl⟩
      intro z hz
      rcases List.mem_cons.mp hz with rfl | hzys
      · exact hxy
      · exact le_trans (hy z hzys) hxy

theorem isortDesc_pairwise (l : List ScoredVenues) :
    (isortDesc l).Pairwise (fun a b => scoreVal b ≤ scoreVal a) := by
  induction l with
  | nil => simp [isortDesc]
  | cons x xs ih => exact insertDesc_pairwise x (isortDesc xs) ih

theorem insertDesc_filter (x : ScoredVenues) (l : List ScoredVenues) (q : Int) :
    (insertDesc x l).filter (fun v => scoreVal v = q) =
      if scoreVal x = q then x :: l.filter (fun v => scoreVal v = q)
      else l.filter (fun v => scoreVal v = q) := by
  induction l with
  | nil =>
    by_cases hx : scoreVal x = q <;> simp [insertDesc, hx]
  | cons y ys ih =>
    rw [insertDesc]
    by_cases h : scoreVal x < scoreVal y
    · rw [if_pos h]
      by_cases hx : scoreVal x = q
      · have hy : ¬ (scoreVal y = q) := by
          intro hyq
          rw [hx] at h
          rw [hyq] at h
          exact lt_irrefl q h
        simp [List.filter_cons, hx, hy, ih]
      · by_cases hy : scoreVal y = q <;> simp [List.filter_cons, hx, hy, ih]
    · rw [if_neg h]
      by_cases hx : scoreVal x = q <;>
        by_cases hy : scoreVal y = q <;>
          simp [List.filter_cons, hx, hy]

theorem isortDesc_filter (l : List ScoredVenues) (q : Int) :
    (isortDesc l).filter (fun v => scoreVal v = q) =
      l.filter (fun v => scoreVal v = q) := by
  induction l with
  | nil => rfl
  | cons x xs ih =>
    show (insertDesc x (isortDesc xs)).filter _ = _
    rw [insertDesc_filter]
    by_cases hx : scoreVal x = q <;> simp [List.filter_cons, hx, ih]

theorem isortDesc_short (l : List ScoredVenues) (h : l.length ≤ 1) :
    isortDesc l = l := by
  match l with
  | [] => rfl
  | [x] => rfl
  | x :: y :: t => simp at h

theorem combine_ok_parts (venues : List Venue) (venue_scores : List VenueScore)
    (out : List ScoredVenues)
    (h : combine_venues_with_scores venues venue_scores = .ok out) :
    ∃ d, buildScoreDict venue_scores = .ok d ∧ combineLoop d venues = .ok out := by
  unfold combine_venues_with_scores at h
  cases hb : buildScoreDict venue_scores with
  | error e => rw [hb] at h; cases h
  | ok d => rw [hb] at h; exact ⟨d, rfl, h⟩

theorem filter_score_some_eq (l : List ScoredVenues)
    (hall : ∀ r ∈ l, r.score.isSome) (q : Int) :
    l.filter (fun r => r.score = some q) = l.filter (fun r => scoreVal r = q) := by
  refine List.filter_congr ?_
  intro r hr
  rcases Option.isSome_iff_exists.mp (hall r hr) with ⟨a, ha⟩
  simp [scoreVal, ha]

/- List lemmas about filterMap used by the scoring-stage claims. -/

theorem filterMap_id_map (f : α → Option β) (l : List α) :
    (l.map f).filterMap id = l.filterMap f := by
  induction l with
  | nil => rfl
  | cons a l ih => simp [List.filterMap_cons, ih]

theorem length_filterMap_allSome (f : α → Option β) (l : List α)
    (h : ∀ a ∈ l, (f a).isSome) : (l.filterMap f).length = l.length := by
  induction l with
  | nil => rfl
  | cons a l ih =>
    have ha := h a (List.mem_cons_self _ _)
    rcases Option.isSome_iff_exists.mp ha with ⟨b, hb⟩
    simp [List.filterMap_cons, hb,
      ih (fun x hx => h x (List.mem_cons_of_mem _ hx))]

theorem length_filterMap_countP (f : α → Option β) (l : List α) :
    (l.filterMap f).length = l.countP (fun a => (f a).isSome) := by
  induction l with
  | nil => rfl
  | cons a l ih =>
    cases hfa : f a with
    | none => simp [List.filterMap_cons, List.countP_cons, hfa, ih]
    | some b => simp [List.filterMap_cons, List.countP_cons, hfa, ih]

/- Lemmas on the search-stage loop. -/

/-- One validation step of the search loop, at arrival index `i`. -/
def searchStep (freshIds : Nat → String) (p : Nat × JValue) : Option Venue :=
  match p.2 with
  | .jobj fields => validateVenue (freshIds p.1) fields
  | _ => none

theorem appendValidVenues_eq (freshIds : Nat → String) (items : List JValue)
    (i : Nat) (acc : List Venue) :
    appendValidVenues freshIds i items acc =
      acc ++ (items.enumFrom i).filterMap (searchStep freshIds) := by
  induction items generalizing i acc with
  | nil => simp [appendValidVenues]
  | cons item rest ih =>
    cases item with
    | jobj fields =>
      cases hv : validateVenue (freshIds i) fields with
      | some v =>
        rw [show appendValidVenues freshIds i (.jobj fields :: rest) acc
            = appendValidVenues freshIds (i + 1) rest (acc ++ [v]) by
              simp [appendValidVenues, hv]]
        rw [ih]
        simp [List.enumFrom, List.filterMap_cons, searchStep, hv]
      | none =>
        rw [show appendValidVenues freshIds i (.jobj fields :: rest) acc
            = appendValidVenues freshIds (i + 1) rest acc by
              simp [appendValidVenues, hv]]
        rw [ih]
        simp [List.enumFrom, List.filterMap_cons, searchStep, hv]
    | jnull =>
      rw [show appendValidVenues freshIds i (.jnull :: rest) acc
          = appendValidVenues freshIds (i + 1) rest acc from rfl, ih]
      simp [List.enumFrom, List.filterMap_cons, searchStep]
    | jbool b =>
      rw [show appendValidVenues freshIds i (.jbool b :: rest) acc
          = appendValidVenues freshIds (i + 1) rest acc from rfl, ih]
      simp [List.enumFrom, List.filterMap_cons, searchStep]
    | jnum n =>
      rw [show appendValidVenues freshIds i (.jnum n :: rest) acc
          = appendValidVenues freshIds (i + 1) rest acc from rfl, ih]
      simp [List.enumFrom, List.filterMap_cons, searchStep]
    | jstr s =>
      rw [show appendValidVenues freshIds i (.jstr s :: rest) acc
          = appendValidVenues freshIds (i + 1) rest acc from rfl, ih]
      simp [List.enumFrom, List.filterMap_cons, searchStep]
    | jarr xs =>
      rw [show appendValidVenues freshIds i (.jarr xs :: rest) acc
          = appendValidVenues freshIds (i + 1) rest acc from rfl, ih]
      simp [List.enumFrom, List.filterMap_cons, searchStep]

theorem validVenuesOf_eq (freshIds : Nat → String) (items : List JValue) :
    validVenuesOf freshIds items = (items.enumFrom 0).filterMap (searchStep freshIds) := by
  unfold validVenuesOf
  rfl

/- Lemmas on the email-writing loop. -/

/-- The raw-name key of a hydrated venue, used by the
`generated_emails` dict. -/
def nameKeyOf (v : ScoredVenues) : Option String :=
  v.name

theorem writeEmailsLoop_ok (draft : ScoredVenues → String)
    (l : List ScoredVenues) (hnames : ∀ v ∈ l, v.name.isSome)
    (files emails : List (String × String)) :
    ∃ fe, writeEmailsLoop draft l files emails = .ok fe := by
  induction l generalizing files emails with
  | nil => exact ⟨(files, emails), rfl⟩
  | cons v rest ih =>
    rcases Option.isSome_iff_exists.mp (hnames v (List.mem_cons_self _ _)) with ⟨n, hn⟩
    rcases ih (fun u hu => hnames u (List.mem_cons_of_mem _ hu))
      (dictInsert files (sanitizeName n ++ ".txt") (draft v))
      (dictInsert emails n (draft v)) with ⟨fe, hfe⟩
    exact ⟨fe, by simp [writeEmailsLoop, hn, hfe]⟩

theorem writeEmailsLoop_files (draft : ScoredVenues → String)
    (l : List ScoredVenues) (files emails f e : List (String × String))
    (h : writeEmailsLoop draft l files emails = .ok (f, e)) :
    dictOfList fileKeyOf draft l files = .ok f := by
  induction l generalizing files emails with
  | nil => cases h; rfl
  | cons v rest ih =>
    cases hn : v.name with
    | none => simp [writeEmailsLoop, hn] at h
    | some n =>
      simp only [writeEmailsLoop, hn] at h
      have := ih _ _ h
      simpa [dictOfList, fileKeyOf, hn] using this

theorem writeEmailsLoop_emails (draft : ScoredVenues → String)
    (l : List ScoredVenues) (files emails f e : List (String × String))
    (h : writeEmailsLoop draft l files emails = .ok (f, e)) :
    dictOfList nameKeyOf draft l emails = .ok e := by
  induction l generalizing files emails with
  | nil => cases h; rfl
  | cons v rest ih =>
    cases hn : v.name with
    | none => simp [writeEmailsLoop, hn] at h
    | some n =>
      simp only [writeEmailsLoop, hn] at h
      have := ih _ _ h
      simpa [dictOfList, nameKeyOf, hn] using this

/- Claim theorems. -/

/-- C1 counterexample: the claim quantifies over every `VenueScore`
list, including scores with a missing name; on such a score the merger
raises AttributeError while building the lookup dict, so an empty venue
list does not yield an empty output and the non-matching score is not
ignored without error. -/
theorem C1_counterexample :
    combine_venues_with_scores [] [sNoName] = .error "AttributeError" := rfl

/-- C1 (amended with the side condition the counterexample forces:
every venue and every score carries a name): the merger succeeds, every
output record's name is the name of some input venue, its normalized
key is the normalized key of some input score, and an empty venue list
yields an empty output.  Scores whose key matches no venue are ignored
without error. -/
theorem C1_merger_join_correctness (venues : List Venue)
    (venue_scores : List VenueScore)
    (hv : ∀ v ∈ venues, v.name.isSome)
    (hs : ∀ s ∈ venue_scores, s.name.isSome) :
    ∃ out, combine_venues_with_scores venues venue_scores = .ok out ∧
      (∀ r ∈ out, ∃ v ∈ venues, r.name = v.name) ∧
      (∀ r ∈ out, ∃ s ∈ venue_scores, scoreKey s = r.name.map normKey) ∧
      (venues = [] → out = []) := by
  rcases buildScoreDict_ok venue_scores hs with ⟨d, hd⟩
  rcases combineLoop_ok d venues hv with ⟨out, hout⟩
  refine ⟨out, ?_, ?_, ?_, ?_⟩
  · unfold combine_venues_with_scores
    rw [hd]
    exact hout
  · intro r hr
    rcases combineLoop_mem d venues out hout r hr with ⟨v, hvmem, n, s, hn, hg, hrs⟩
    exact ⟨v, hvmem, by rw [hrs]; rfl⟩
  · intro r hr
    rcases combineLoop_mem d venues out hout r hr with ⟨v, hvmem, n, s, hn, hg, hrs⟩
    rw [buildScoreDict_char venue_scores d hd (normKey n)] at hg
    rcases lastFind_mem _ _ _ hg with ⟨hsmem, hps⟩
    refine ⟨s, hsmem, ?_⟩
    have hkey : scoreKey s = some (normKey n) := of_decide_eq_true hps
    rw [hkey, hrs]
    show some (normKey n) = Option.map normKey (mkScored v s).name
    rw [show (mkScored v s).name = v.name from rfl, hn]
    rfl
  · intro hnil
    subst hnil
    exact Except.ok.inj hout.symm

/-- C1 witness: the amended statement at a venue whose padded,
capitalized name matches a lowercase score key after normalization,
with an extra score ("hall") matching no venue. -/
theorem C1_witness :
    ∃ out, combine_venues_with_scores [vLoft] [sLoft, sOrphan] = .ok out ∧
      (∀ r ∈ out, ∃ v ∈ [vLoft], r.name = v.name) ∧
      (∀ r ∈ out, ∃ s ∈ [sLoft, sOrphan], scoreKey s = r.name.map normKey) ∧
      ([vLoft] = ([] : List Venue) → out = []) :=
  C1_merger_join_correctness [vLoft] [sLoft, sOrphan] (by decide) (by decide)

/-- C2 counterexample: the id-keyed merger variant of utils/venuUtils.py
(cited by the claim) joins on `score.id`, but `VenueScore` has no `id`
attribute, so on any non-empty score list it raises AttributeError
instead of computing a normalized, identifier-preferring join key. -/
theorem C2_counterexample :
    combine_venues_with_scores_by_id [mkVenueNamed "a" "Loft"] [sC3] =
      .error "AttributeError: VenueScore object has no attribute id" := rfl

/-- C2 (amended): the live merger of utils/venueUtils.py joins solely
on the trimmed-and-lowercased display name -- a one-venue, one-score
merge produces a record exactly when the normalized names agree,
whatever the venue id is -- and the id-keyed variant of
utils/venuUtils.py raises AttributeError on every non-empty score list
because `VenueScore` has no id field; no identifier preference or
fallback exists in either variant. -/
theorem C2_join_key_policy :
    (∀ (vid vn sn : String) (sc : Option Int) (rs : Option String),
      combine_venues_with_scores [mkVenueNamed vid vn]
        [{ name := some sn, score := sc, reason := rs }] =
        .ok (if normKey vn = normKey sn
             then [mkScored (mkVenueNamed vid vn)
                     { name := some sn, score := sc, reason := rs }]
             else []))
    ∧ (∀ (venues : List Venue) (s : VenueScore) (venue_scores : List VenueScore),
        combine_venues_with_scores_by_id venues (s :: venue_scores) =
          .error "AttributeError: VenueScore object has no attribute id") := by
  constructor
  · intro vid vn sn sc rs
    by_cases h : normKey vn = normKey sn <;>
      simp [combine_venues_with_scores, buildScoreDict, dictOfList, dictInsert,
        scoreKey, combineLoop, dictGet, mkVenueNamed, h]
  · intro venues s venue_scores
    rfl

/-- C3 counterexample: two venues that differ only in capacity produce
identical merger outputs, so the produced `ScoredVenues` record cannot
carry the matched venue's capacity (nor, for the same reason, the other
fields absent from the `ScoredVenues` shape). -/
theorem C3_counterexample :
    combine_venues_with_scores [vCap1] [sC3] =
      combine_venues_with_scores [vCap2] [sC3]
    ∧ vCap1.capacity ≠ vCap2.capacity := ⟨rfl, by decide⟩

/-- C3 (amended): every record the merger produces carries the matched
venue's id, name, type, address and distance_km, its website, phone and
email with a missing value replaced by the empty string, and the score
and reason of the matched score; capacity, amenities, accessibility,
parking, special_features, audio_visual, technology and other are not
carried (the `ScoredVenues` shape has no such fields). -/
theorem C3_scored_fields (venues : List Venue) (venue_scores : List VenueScore)
    (out : List ScoredVenues)
    (h : combine_venues_with_scores venues venue_scores = .ok out)
    (r : ScoredVenues) (hr : r ∈ out) :
    ∃ v ∈ venues, ∃ s ∈ venue_scores,
      r.id = some v.id ∧ r.name = v.name ∧ r.type = v.type ∧
      r.address = v.address ∧ r.distance_km = v.distance_km ∧
      r.website = some (v.website.getD "") ∧
      r.phone = some (v.phone.getD "") ∧
      r.email = some (v.email.getD "") ∧
      r.score = s.score ∧ r.reason = s.reason := by
  rcases combine_ok_parts venues venue_scores out h with ⟨d, hd, hloop⟩
  rcases combineLoop_mem d venues out hloop r hr with ⟨v, hvmem, n, s, hn, hg, hrs⟩
  rw [buildScoreDict_char venue_scores d hd (normKey n)] at hg
  rcases lastFind_mem _ _ _ hg with ⟨hsmem, _⟩
  subst hrs
  exact ⟨v, hvmem, s, hsmem, rfl, rfl, rfl, rfl, rfl, rfl, rfl, rfl, rfl, rfl⟩

/-- C3 witness: the amended field characterization at a concrete
one-venue, one-score merge. -/
theorem C3_witness :
    ∃ v ∈ [vLoft], ∃ s ∈ [sLoft],
      (mkScored vLoft sLoft).id = some v.id ∧
      (mkScored vLoft sLoft).name = v.name ∧
      (mkScored vLoft sLoft).type = v.type ∧
      (mkScored vLoft sLoft).address = v.address ∧
      (mkScored vLoft sLoft).distance_km = v.distance_km ∧
      (mkScored vLoft sLoft).website = some (v.website.getD "") ∧
      (mkScored vLoft sLoft).phone = some (v.phone.getD "") ∧
      (mkScored vLoft sLoft).email = some (v.email.getD "") ∧
      (mkScored vLoft sLoft).score = s.score ∧
      (mkScored vLoft sLoft).reason = s.reason :=
  C3_scored_fields [vLoft] [sLoft] [mkScored vLoft sLoft] rfl
    (mkScored vLoft sLoft) (by decide)

/-- C5 counterexample: a `VenueScore` whose key (name) is missing is
not excluded from the lookup map; the merger raises AttributeError
(`None.strip()`) while building the dict. -/
theorem C5_counterexample :
    combine_venues_with_scores [mkVenueNamed "a" "Loft"] [sNoName] =
      .error "AttributeError" := rfl

/-- C5 (amended with what the counterexample forces: a score with a
missing key raises instead of being excluded): permuting the score list
does not change which records (which names) the merger produces; the
score dict maps each key to the last score in input order whose
normalized name is that key (last-write-wins); and a score with a
missing name makes the merger raise. -/
theorem C5_merger_order_independence :
    (∀ (venues : List Venue) (s1 s2 : List VenueScore)
       (out out' : List ScoredVenues), s1.Perm s2 →
       combine_venues_with_scores venues s1 = .ok out →
       combine_venues_with_scores venues s2 = .ok out' →
       out.map (fun r => r.name) = out'.map (fun r => r.name))
    ∧ (∀ (venue_scores : List VenueScore) (d : List (String × VenueScore))
         (k : String), buildScoreDict venue_scores = .ok d →
         dictGet k d = lastFind (fun s => scoreKey s = some k) venue_scores)
    ∧ (∀ (venues : List Venue) (venue_scores : List VenueScore),
         (∃ s ∈ venue_scores, s.name = none) →
         ∃ e, combine_venues_with_scores venues venue_scores = .error e) := by
  refine ⟨?_, ?_, ?_⟩
  · intro venues s1 s2 out out' hperm h h'
    rcases combine_ok_parts venues s1 out h with ⟨d, hd, hloop⟩
    rcases combine_ok_parts venues s2 out' h' with ⟨d', hd', hloop'⟩
    refine combineLoop_names_ext d d' venues out out' ?_ hloop hloop'
    intro k
    rw [buildScoreDict_char s1 d hd k, buildScoreDict_char s2 d' hd' k]
    by_cases h1 : (lastFind (fun s => scoreKey s = some k) s1).isSome = true
    · have h2 : (lastFind (fun s => scoreKey s = some k) s2).isSome = true := by
        rw [lastFind_isSome_iff] at h1 ⊢
        rcases h1 with ⟨s, hs, hps⟩
        exact ⟨s, hperm.mem_iff.mp hs, hps⟩
      rw [h1, h2]
    · have h2 : ¬ (lastFind (fun s => scoreKey s = some k) s2).isSome = true := by
        rw [lastFind_isSome_iff] at h1 ⊢
        rintro ⟨s, hs, hps⟩
        exact h1 ⟨s, hperm.mem_iff.mpr hs, hps⟩
      simp only [Bool.not_eq_true] at h1 h2
      rw [h1, h2]
  · intro venue_scores d k hd
    exact buildScoreDict_char venue_scores d hd k
  · intro venues venue_scores hmiss
    rcases buildScoreDict_error venue_scores hmiss with ⟨e, he⟩
    refine ⟨e, ?_⟩
    unfold combine_venues_with_scores
    rw [he]

/-- C5 witness: the amended statement at concrete inputs -- a permuted
two-score list with duplicate normalized keys "loft" (the later score
wins: `sDup2` for input order `[sDup1, sDup2]`), and a score list with
a missing name. -/
theorem C5_witness :
    (List.map (fun r => r.name) [mkScored vPlainLoft sDup2] =
      List.map (fun r => r.name) [mkScored vPlainLoft sDup1])
    ∧ (dictGet "loft" [("loft", sDup2)] =
        lastFind (fun s => scoreKey s = some "loft") [sDup1, sDup2])
    ∧ (∃ e, combine_venues_with_scores [vLoft] [sNoName, sLoft] = .error e) :=
  ⟨C5_merger_order_independence.1 [vPlainLoft] [sDup1, sDup2] [sDup2, sDup1]
      [mkScored vPlainLoft sDup2] [mkScored vPlainLoft sDup1]
      (by decide) (by rfl) (by rfl),
   C5_merger_order_independence.2.1 [sDup1, sDup2] [("loft", sDup2)] "loft" rfl,
   C5_merger_order_independence.2.2 [vLoft] [sNoName, sLoft]
      ⟨sNoName, by decide, rfl⟩⟩

/-- C6: whenever hydration succeeds, the resulting list is pairwise
non-increasing on the sort key, it is a permutation of the combined
(pre-sort) list, and for every score value the sorted list restricted
to that value equals the pre-sort list restricted to it (ties keep
their pre-sort relative order); and the recomputation the Human
Decision Gate performs before displaying is the same function as
`hydrate_venues`. -/
theorem C6_hydrated_sorted :
    (∀ (venues : List Venue) (venue_scores : List VenueScore)
       (out : List ScoredVenues),
       hydrate_venues venues venue_scores = .ok out →
       out.Pairwise (fun a b => scoreVal b ≤ scoreVal a)
       ∧ ∃ pre, combine_venues_with_scores venues venue_scores = .ok pre
           ∧ out.Perm pre
           ∧ ∀ q : Int, out.filter (fun r => r.score = some q) =
               pre.filter (fun r => r.score = some q))
    ∧ human_in_the_loop_hydrate = hydrate_venues := by
  constructor
  · intro venues venue_scores out h
    unfold hydrate_venues at h
    cases hc : combine_venues_with_scores venues venue_scores with
    | error e => rw [hc] at h; cases h
    | ok pre =>
      rw [hc] at h
      replace h : (if pre.length ≤ 1 ∨ pre.all (fun v => v.score.isSome)
          then Except.ok (isortDesc pre)
          else Except.error
            "TypeError: comparison not supported between float and NoneType")
          = Except.ok out := h
      by_cases hg : pre.length ≤ 1 ∨ pre.all (fun v => v.score.isSome)
      · rw [if_pos hg] at h
        cases h
        refine ⟨isortDesc_pairwise pre, pre, rfl, isortDesc_perm pre, ?_⟩
        intro q
        rcases hg with hshort | hall
        · rw [isortDesc_short pre hshort]
        · have hallp : ∀ r ∈ pre, r.score.isSome := by
            intro r hr
            exact List.all_eq_true.mp hall r hr
          have hallout : ∀ r ∈ isortDesc pre, r.score.isSome := by
            intro r hr
            exact hallp r ((isortDesc_perm pre).mem_iff.mp hr)
          rw [filter_score_some_eq (isortDesc pre) hallout q,
            filter_score_some_eq pre hallp q]
          exact isortDesc_filter pre q
      · rw [if_neg hg] at h
        cases h
  · rfl

/-- C6 witness: hydrating two venues whose scores arrive in ascending
order yields the descending-sorted list. -/
theorem C6_witness :
    [mkScored vBeta sBeta, mkScored vAlpha sAlpha].Pairwise
      (fun a b => scoreVal b ≤ scoreVal a)
    ∧ ∃ pre, combine_venues_with_scores [vAlpha, vBeta] [sAlpha, sBeta] = .ok pre
        ∧ [mkScored vBeta sBeta, mkScored vAlpha sAlpha].Perm pre
        ∧ ∀ q : Int,
            [mkScored vBeta sBeta, mkScored vAlpha sAlpha].filter
              (fun r => r.score = some q) =
            pre.filter (fun r => r.score = some q) :=
  C6_hydrated_sorted.1 [vAlpha, vBeta] [sAlpha, sBeta]
    [mkScored vBeta sBeta, mkScored vAlpha sAlpha] rfl

/-- C4 counterexample: with a non-empty email template the stage
produces no drafted email at all -- no artifact is written and the
venue-name to body mapping stays empty -- although a hydrated venue is
present; so the claim's unconditional "one drafted email body per
venue" fails. -/
theorem C4_counterexample :
    write_and_save_emails draftBody stTemplate [] = .ok ([], stTemplate)
    ∧ stTemplate.hydrated_venues.length = 1
    ∧ stTemplate.generated_emails = [] := ⟨rfl, rfl, rfl⟩

/-- C4 (amended with the condition the counterexample forces: the
stage drafts only when the email template is the empty string): one
email per hydrated venue is drafted; the artifact name is the venue's
display name stripped to the alphanumeric/space/hyphen/underscore
allow-list plus ".txt"; each artifact's final content is the draft of
the LAST venue in list order whose sanitized name yields that filename
(colliding names are not disambiguated); the state's venue-name to body
mapping records the draft of the last venue bearing each raw name; and
every venue's artifact name is present in the output directory. -/
theorem C4_email_drafting (draft : ScoredVenues → String)
    (st : VenueScoreState) (files : List (String × String))
    (input : InputData) (hinput : st.input_data = some input)
    (htmpl : input.email_template = some "")
    (hnames : ∀ v ∈ st.hydrated_venues, v.name.isSome) :
    ∃ files' st', write_and_save_emails draft st files = .ok (files', st')
      ∧ st'.hydrated_venues = st.hydrated_venues
      ∧ (∀ fname, dictGet fname files' =
          optOr ((lastFind (fun v => fileKeyOf v = some fname)
                    st.hydrated_venues).map draft)
                (dictGet fname files))
      ∧ (∀ nm, dictGet nm st'.generated_emails =
          optOr ((lastFind (fun v => nameKeyOf v = some nm)
                    st.hydrated_venues).map draft)
                (dictGet nm st.generated_emails))
      ∧ (∀ v ∈ st.hydrated_venues, ∀ n, v.name = some n →
          (dictGet (sanitizeName n ++ ".txt") files').isSome = true) := by
  rcases writeEmailsLoop_ok draft st.hydrated_venues hnames files
    st.generated_emails with ⟨⟨f, e⟩, hfe⟩
  have hfiles := writeEmailsLoop_files draft st.hydrated_venues files
    st.generated_emails f e hfe
  have hemails := writeEmailsLoop_emails draft st.hydrated_venues files
    st.generated_emails f e hfe
  refine ⟨f, { st with generated_emails := e }, ?_, rfl, ?_, ?_, ?_⟩
  · have hstep : write_and_save_emails draft st files
        = (if input.email_template = some "" then
            match writeEmailsLoop draft st.hydrated_venues files st.generated_emails with
            | .ok (files', emails') => .ok (files', { st with generated_emails := emails' })
            | .error err => .error err
          else .ok (files, st)) := by
      unfold write_and_save_emails
      rw [hinput]
    rw [hstep, if_pos htmpl, hfe]
  · intro fname
    exact dictOfList_char fileKeyOf draft st.hydrated_venues files f hfiles fname
  · intro nm
    exact dictOfList_char nameKeyOf draft st.hydrated_venues
      st.generated_emails e hemails nm
  · intro v hv n hn
    rw [dictOfList_char fileKeyOf draft st.hydrated_venues files f hfiles
      (sanitizeName n ++ ".txt")]
    have hsome : (lastFind (fun u => fileKeyOf u = some (sanitizeName n ++ ".txt"))
        st.hydrated_venues).isSome = true :=
      (lastFind_isSome_iff _ _).mpr ⟨v, hv, by simp [fileKeyOf, hn]⟩
    rcases Option.isSome_iff_exists.mp hsome with ⟨u, hu⟩
    rw [hu]
    rfl

/-- C4 witness: the amended statement on two venues, "Grand Hall!" and
"Grand Hall?", whose names sanitize to the same "Grand Hall.txt"
artifact. -/
theorem C4_witness :
    ∃ files' st', write_and_save_emails draftBody stDraft [] = .ok (files', st')
      ∧ st'.hydrated_venues = stDraft.hydrated_venues
      ∧ (∀ fname, dictGet fname files' =
          optOr ((lastFind (fun v => fileKeyOf v = some fname)
                    stDraft.hydrated_venues).map draftBody)
                (dictGet fname ([] : List (String × String))))
      ∧ (∀ nm, dictGet nm st'.generated_emails =
          optOr ((lastFind (fun v => nameKeyOf v = some nm)
                    stDraft.hydrated_venues).map draftBody)
                (dictGet nm stDraft.generated_emails))
      ∧ (∀ v ∈ stDraft.hydrated_venues, ∀ n, v.name = some n →
          (dictGet (sanitizeName n ++ ".txt") files').isSome = true) :=
  C4_email_drafting draftBody stDraft [] inputEmptyTemplate rfl rfl (by decide)

/-- C7: the scoring stage replaces the whole `VenueScore` list: its
output does not depend on whatever score list was in the state before
(first conjunct quantifies over arbitrary junk in `venue_score`), and
after a redo cycle the count equals the number of venues the latest
pass scored successfully, not a sum across cycles. -/
theorem C7_scoring_replaces :
    ∀ (o₁ o₂ : Option String → Venue → Option VenueScore) (fb : String)
      (st₀ : VenueScoreState) (junk : List VenueScore),
      (score_venues o₂ (apply_redo_feedback
          { score_venues o₁ st₀ with venue_score := junk } fb)).venue_score
        = st₀.venues.filterMap (o₂ (some fb))
      ∧ (score_venues o₂ (apply_redo_feedback (score_venues o₁ st₀) fb)).venue_score.length
        = st₀.venues.countP (fun v => (o₂ (some fb) v).isSome) := by
  intro o₁ o₂ fb st₀ junk
  constructor
  · show (st₀.venues.map (o₂ (some fb))).filterMap id = _
    exact filterMap_id_map _ _
  · show ((st₀.venues.map (o₂ (some fb))).filterMap id).length = _
    rw [filterMap_id_map, length_filterMap_countP]

/-- C8: when exactly one of the venues fails to score (its oracle
result is unparseable, modelled as `none`) and the others succeed, the
stage still returns the other results, in venue order, and the output
is exactly one shorter than the venue list. -/
theorem C8_partial_failure_tolerance (o : Option String → Venue → Option VenueScore)
    (st : VenueScoreState) (pre post : List Venue) (v : Venue)
    (hsplit : st.venues = pre ++ v :: post)
    (hfail : o st.scored_venues_feedback v = none)
    (hok : ∀ u ∈ pre ++ post, (o st.scored_venues_feedback u).isSome) :
    (score_venues o st).venue_score
      = pre.filterMap (o st.scored_venues_feedback)
        ++ post.filterMap (o st.scored_venues_feedback)
    ∧ (score_venues o st).venue_score.length + 1 = st.venues.length := by
  have hvs : (score_venues o st).venue_score
      = st.venues.filterMap (o st.scored_venues_feedback) :=
    filterMap_id_map _ _
  have hsplitmap : (score_venues o st).venue_score
      = pre.filterMap (o st.scored_venues_feedback)
        ++ post.filterMap (o st.scored_venues_feedback) := by
    rw [hvs, hsplit, List.filterMap_append, List.filterMap_cons, hfail]
  refine ⟨hsplitmap, ?_⟩
  have hpre : (pre.filterMap (o st.scored_venues_feedback)).length = pre.length :=
    length_filterMap_allSome _ _
      (fun u hu => hok u (List.mem_append_left _ hu))
  have hpost : (post.filterMap (o st.scored_venues_feedback)).length = post.length :=
    length_filterMap_allSome _ _
      (fun u hu => hok u (List.mem_append_right _ hu))
  rw [hsplitmap, List.length_append, hpre, hpost, hsplit, List.length_append,
    List.length_cons]
  omega

/-- C8 witness: scoring three venues where exactly the middle one
(vBeta, id "b") yields no parseable score. -/
theorem C8_witness :
    (score_venues scoreOracleC8 stC8).venue_score
      = [vAlpha].filterMap (scoreOracleC8 stC8.scored_venues_feedback)
        ++ [vGamma].filterMap (scoreOracleC8 stC8.scored_venues_feedback)
    ∧ (score_venues scoreOracleC8 stC8).venue_score.length + 1 = stC8.venues.length :=
  C8_partial_failure_tolerance scoreOracleC8 stC8 [vAlpha] [vGamma] vBeta
    rfl rfl (by decide)

/-- C9: the search stage wraps a single decoded object into a
one-element list (searching an object and searching the singleton list
holding it are the same), uses a decoded list as is, appending exactly
the items that validate as venues in arrival order, and leaves the
state unchanged -- appending nothing and not aborting -- on a missing
or undecodable raw result and on every other decoded shape. -/
theorem C9_search_parsing :
    ∀ (freshIds : Nat → String) (fields : List (String × JValue))
      (items : List JValue) (st : VenueScoreState) (s : String) (n : Int) (b : Bool),
      (search_venues freshIds (some (.jobj fields)) st
        = search_venues freshIds (some (.jarr [.jobj fields])) st)
      ∧ (search_venues freshIds (some (.jarr items)) st
          = { st with venues := st.venues ++ validVenuesOf freshIds items })
      ∧ search_venues freshIds none st = st
      ∧ search_venues freshIds (some .jnull) st = st
      ∧ search_venues freshIds (some (.jbool b)) st = st
      ∧ search_venues freshIds (some (.jnum n)) st = st
      ∧ search_venues freshIds (some (.jstr s)) st = st := by
  intro freshIds fields items st s n b
  refine ⟨rfl, ?_, rfl, rfl, rfl, rfl, rfl⟩
  show ({ st with venues := appendValidVenues freshIds 0 items st.venues }
      : VenueScoreState) = _
  rw [appendValidVenues_eq, validVenuesOf_eq]

/-- C10 counterexample: after a redo with feedback "alpha" and a second
redo with feedback "b", the state's feedback field is exactly "b"; the
prior feedback "alpha" is not part of it (no decomposition of "b"
contains "alpha"), so feedback is replaced, not appended. -/
theorem C10_counterexample :
    (apply_redo_feedback (apply_redo_feedback stFb "alpha") "b").scored_venues_feedback
      = some "b"
    ∧ ¬ ∃ p s : String, p ++ "alpha" ++ s = "b" := by
  refine ⟨rfl, ?_⟩
  rintro ⟨p, s, hps⟩
  have hlen := congrArg String.length hps
  rw [String.length_append, String.length_append] at hlen
  have h5 : ("alpha" : String).length = 5 := rfl
  have h1 : ("b" : String).length = 1 := rfl
  rw [h5, h1] at hlen
  omega

/-- C10 (amended): choosing redo at the gate assigns the supplied
feedback to the state's feedback field, replacing it -- the resulting
state is exactly the same whatever feedback was accumulated before. -/
theorem C10_feedback_replaced :
    ∀ (st : VenueScoreState) (fb : String),
      (apply_redo_feedback st fb).scored_venues_feedback = some fb
      ∧ ∀ prior, apply_redo_feedback { st with scored_venues_feedback := prior } fb
          = apply_redo_feedback st fb := by
  intro st fb
  exact ⟨rfl, fun prior => rfl⟩

end VenueFlow
